import Mathlib

/-!
# Verification of the Secure Network Proxy core

Shallow embedding of the two proxy binaries of this repository:

* `src/prison-network/src/main.rs` — explicit HTTP CONNECT proxy (prefix `pn`)
* `src/rust-proxy/src/main.rs`     — transparent SNI-sniffing proxy (prefix `rp`)

Rust strings are modelled as `List Char`, byte buffers as `List UInt8`.
Pure functions of the source (`check_host_allowed`, `check_request`,
`parse_sni`, the CONNECT parsing) are translated directly; the two
`handle_connection` bodies are modelled as functions from an explicit
environment (the outcomes of the I/O steps the handler performs) to the
list of externally visible actions they execute, in program order.
-/

namespace SecureProxy

/-- Rust string literal, as a list of characters. -/
def str (s : String) : List Char := s.data

/-- Byte string for an ASCII Rust literal (used to build concrete inputs). -/
def strBytes (s : String) : List UInt8 := s.data.map (fun c => UInt8.ofNat c.toNat)

/-! ## Pieces of the Rust standard library used by the source -/

/-- Rust `char::is_whitespace` (Unicode `White_Space`), as used by
`str::split_whitespace`. -/
def rustIsWhitespace (c : Char) : Bool :=
  c = ' ' || ('\u0009' ≤ c && c ≤ '\u000d') || c = '\u0085' || c = '\u00a0' ||
  c = '\u1680' || ('\u2000' ≤ c && c ≤ '\u200a') || c = '\u2028' ||
  c = '\u2029' || c = '\u202f' || c = '\u205f' || c = '\u3000'

/-- Fuel-indexed worker for `splitWhitespace`; every recursive call is on a
list no longer than the fuel, so `fuel = s.length` never runs out. -/
def splitWhitespaceF : Nat → List Char → List (List Char)
  | 0, _ => []
  | _, [] => []
  | fuel + 1, c :: rest =>
    if rustIsWhitespace c then splitWhitespaceF fuel rest
    else (c :: rest.takeWhile (fun x => !rustIsWhitespace x))
      :: splitWhitespaceF fuel (rest.dropWhile (fun x => !rustIsWhitespace x))

/-- Rust `str::split_whitespace`: maximal runs of non-whitespace characters. -/
def splitWhitespace (s : List Char) : List (List Char) :=
  splitWhitespaceF s.length s

/-- Rust `s.lines().next().unwrap_or("")`: the text before the first `'\n'`, with a
trailing `'\r'` stripped only when that `'\n'` is actually present. -/
def firstLine (s : List Char) : List Char :=
  let l := s.takeWhile (fun c => c ≠ '\n')
  if l.length < s.length then
    if l.getLast? = some '\r' then l.dropLast else l
  else l

/-- Rust `str::parse::<u16>()`: optional leading `'+'`, then one or more ASCII
digits, value at most `65535`; anything else is a parse error. -/
def parseU16? (s : List Char) : Option Nat :=
  let digits := if s.head? = some '+' then s.tail else s
  if digits.isEmpty then none
  else if digits.all Char.isDigit then
    let v := digits.foldl (fun acc c => acc * 10 + (c.toNat - 48)) 0
    if v ≤ 65535 then some v else none
  else none

/-- Rust `str::rfind(c)`: index of the last occurrence of `c`. -/
def lastIdxOf (c : Char) : List Char → Option Nat
  | [] => none
  | x :: xs =>
    match lastIdxOf c xs with
    | some i => some (i + 1)
    | none => if x = c then some 0 else none

/-! ### UTF-8 decoding

`String::from_utf8` / `String::from_utf8_lossy` of the Rust standard
library, with the standard maximal-subpart replacement policy: each
maximal prefix of a valid sequence that cannot be completed yields one
error slot (`none`). -/

/-- A UTF-8 continuation byte. -/
def utf8Cont (b : UInt8) : Bool := 0x80 ≤ b && b ≤ 0xBF

/-- Decode the first UTF-8 sequence of the list: the scalar value (or `none`
for an invalid maximal subpart) and the number of bytes consumed. -/
def utf8Step : List UInt8 → Option Char × Nat
  | [] => (none, 1)
  | b :: rest =>
    if b ≤ 0x7F then (some (Char.ofNat b.toNat), 1)
    else if 0xC2 ≤ b && b ≤ 0xDF then
      match rest with
      | [] => (none, 1)
      | b1 :: _ =>
        if utf8Cont b1 then
          (some (Char.ofNat ((b.toNat - 0xC0) * 64 + (b1.toNat - 0x80))), 2)
        else (none, 1)
    else if 0xE0 ≤ b && b ≤ 0xEF then
      let lo1 : UInt8 := if b = 0xE0 then 0xA0 else 0x80
      let hi1 : UInt8 := if b = 0xED then 0x9F else 0xBF
      match rest with
      | [] => (none, 1)
      | b1 :: rest1 =>
        if lo1 ≤ b1 && b1 ≤ hi1 then
          match rest1 with
          | [] => (none, 2)
          | b2 :: _ =>
            if utf8Cont b2 then
              (some (Char.ofNat
                ((b.toNat - 0xE0) * 4096 + (b1.toNat - 0x80) * 64 + (b2.toNat - 0x80))), 3)
            else (none, 2)
        else (none, 1)
    else if 0xF0 ≤ b && b ≤ 0xF4 then
      let lo1 : UInt8 := if b = 0xF0 then 0x90 else 0x80
      let hi1 : UInt8 := if b = 0xF4 then 0x8F else 0xBF
      match rest with
      | [] => (none, 1)
      | b1 :: rest1 =>
        if lo1 ≤ b1 && b1 ≤ hi1 then
          match rest1 with
          | [] => (none, 2)
          | b2 :: rest2 =>
            if utf8Cont b2 then
              match rest2 with
              | [] => (none, 3)
              | b3 :: _ =>
                if utf8Cont b3 then
                  (some (Char.ofNat
                    ((b.toNat - 0xF0) * 262144 + (b1.toNat - 0x80) * 4096 +
                      (b2.toNat - 0x80) * 64 + (b3.toNat - 0x80))), 4)
                else (none, 3)
            else (none, 2)
        else (none, 1)
    else (none, 1)

/-- Fuel-indexed worker for `utf8DecodeAux`: `utf8Step` always consumes at
least one byte (the recursion drops `count - 1` further bytes of the
tail), so `fuel = l.length` never runs out. -/
def utf8DecodeAuxF : Nat → List UInt8 → List (Option Char)
  | 0, _ => []
  | _, [] => []
  | fuel + 1, b :: rest =>
    (utf8Step (b :: rest)).1 :: utf8DecodeAuxF fuel (rest.drop ((utf8Step (b :: rest)).2 - 1))

/-- Decode a byte list into scalar values, `none` marking each invalid
maximal subpart. -/
def utf8DecodeAux (l : List UInt8) : List (Option Char) :=
  utf8DecodeAuxF l.length l

/-- Rust `String::from_utf8_lossy`: invalid subparts become U+FFFD. -/
def utf8Lossy (l : List UInt8) : List Char :=
  (utf8DecodeAux l).map (fun o => o.getD (Char.ofNat 0xFFFD))

/-- Rust `String::from_utf8(..).ok()`: `none` on any invalid byte sequence. -/
def utf8Decode? (l : List UInt8) : Option (List Char) :=
  if (utf8DecodeAux l).all Option.isSome then some (utf8Lossy l) else none

/-! ## Configuration and policy evaluator

`HostRule`, `Config`, `check_host_allowed` and `check_request` are shared
verbatim by the two binaries (`src/prison-network/src/main.rs` lines
29–123, `src/rust-proxy/src/main.rs` lines 28–122). -/

structure HostRule where
  host : List Char
  allowed_paths : List (List Char)
deriving DecidableEq, Repr

structure Config where
  mode : List Char
  allowed_rules : List HostRule
deriving DecidableEq, Repr

/-- The closure passed to `iter().find` in both check functions:
`host == rule.host || host.ends_with(&format!(".{}", rule.host))`. -/
def hostMatches (rule : HostRule) (host : List Char) : Bool :=
  host == rule.host || (str "." ++ rule.host).isSuffixOf host

/-- Function `check_host_allowed` (CONNECT-level check, ignores path rules). -/
def check_host_allowed (config : Config) (host : List Char) : Bool × List Char :=
  if config.mode ≠ str "enforce" then (true, str "Monitor Mode")
  else
    match config.allowed_rules.find? (fun rule => hostMatches rule host) with
    | none => (false, str "Host Not Allowed")
    | some _ => (true, str "Host Allowed")

/-- Function `check_request` (host + path check). -/
def check_request (config : Config) (host path : List Char) : Bool × List Char :=
  if config.mode ≠ str "enforce" then (true, str "Monitor Mode")
  else
    match config.allowed_rules.find? (fun rule => hostMatches rule host) with
    | none => (false, str "Host Not Allowed")
    | some rule =>
      if rule.allowed_paths.isEmpty then (true, str "Host Match")
      else if rule.allowed_paths.any (fun p => p.isPrefixOf path) then
        (true, str "Path Match")
      else (false, str "Path Not Allowed")

/-! ## CONNECT parsing (`read_connect_request`, prison-network lines 131–172)

The client stream is modelled as the sequence of results that successive
`read` calls deliver: either an I/O error or a chunk of bytes; an
exhausted sequence models end-of-stream (`read` returning 0).  A `read`
into the remaining buffer space delivers at most that much of the next
chunk, the remainder staying in the stream. -/

inductive StreamRead where
  | ioErr
  | data (bytes : List UInt8)
deriving DecidableEq, Repr

/-- Total number of data bytes remaining in the stream. -/
def streamBytes : List StreamRead → Nat
  | [] => 0
  | .ioErr :: rest => streamBytes rest
  | .data c :: rest => c.length + streamBytes rest

/-- The byte pattern `b"\r\n\r\n"`. -/
def crlfcrlf : List UInt8 := [13, 10, 13, 10]

/-- Rust `buf[..total].windows(4).position(|w| w == b"\r\n\r\n").is_some()`:
does `pat` occur as a contiguous subsequence? -/
def containsSeq (pat : List UInt8) : List UInt8 → Bool
  | [] => pat.isPrefixOf []
  | a :: rest => pat.isPrefixOf (a :: rest) || containsSeq pat rest

/-- The read loop of `read_connect_request`: accumulate into a 4096-byte
buffer until `\r\n\r\n` is seen (`.ok (some buffer)`), the stream ends or
the buffer fills up first (`.ok none`, reported as a bad request), or a
read fails (`.error ()`, propagated by `?`). -/
def pn_readLoopF : Nat → List UInt8 → List StreamRead → Except Unit (Option (List UInt8))
  | 0, _, _ => .ok none
  | _, _, [] => .ok none
  | _, _, .ioErr :: _ => .error ()
  | fuel + 1, acc, .data c :: rest =>
    let space := 4096 - acc.length
    let n := min c.length space
    if n = 0 then .ok none
    else
      let acc2 := acc ++ c.take n
      if containsSeq crlfcrlf acc2 then .ok (some acc2)
      else if 4096 ≤ acc2.length then .ok none
      else if n < c.length then pn_readLoopF fuel acc2 (.data (c.drop n) :: rest)
      else pn_readLoopF fuel acc2 rest

/-- The read loop, with enough fuel that it never runs out: every
iteration either consumes a whole chunk or makes strictly positive
progress towards the 4096-byte ceiling. -/
def pn_readLoop (acc : List UInt8) (reads : List StreamRead) :
    Except Unit (Option (List UInt8)) :=
  pn_readLoopF (streamBytes reads + reads.length + 1) acc reads

/-- The `target.rfind(':')` splitting of the CONNECT authority
(prison-network lines 163–169): split at the last colon, parse the right
part as `u16` with `unwrap_or(443)`; no colon means port 443. -/
def connectTarget (target : List Char) : List Char × Nat :=
  match lastIdxOf ':' target with
  | some i => (target.take i, (parseU16? (target.drop (i + 1))).getD 443)
  | none => (target, 443)

/-- The request-line parsing of `read_connect_request` (lines 153–171),
applied to the lossily decoded buffer. -/
def pn_parseConnect (request : List Char) : Option (List Char × Nat) :=
  let first_line := firstLine request
  let parts := splitWhitespace first_line
  if parts.length < 3 || parts.getD 0 [] ≠ str "CONNECT" then none
  else some (connectTarget (parts.getD 1 []))

/-- Function `read_connect_request` in full: read loop, then lossy decode and
parse.  `.error` models an `Err` of the `async fn`, `.ok none` its
`Ok(None)`. -/
def pn_readConnect (reads : List StreamRead) : Except Unit (Option (List Char × Nat)) :=
  match pn_readLoop [] reads with
  | .error e => .error e
  | .ok none => .ok none
  | .ok (some buf) => .ok (pn_parseConnect (utf8Lossy buf))

/-! ## SNI parsing (`parse_sni`, rust-proxy lines 128–217)

Rust slice indexing panics when out of bounds; the model makes every
index and slice operation explicit in an `Except Unit` monad where
`.error ()` is a panic.  The safety claim is that `.error` is
unreachable: every access in the source is guarded by a length check. -/

/-- Index `buf[i]` with Rust panic semantics. -/
def idxM (buf : List UInt8) (i : Nat) : Except Unit UInt8 :=
  if h : i < buf.length then .ok (buf.get ⟨i, h⟩) else .error ()

/-- Slice `&buf[i..]` with Rust panic semantics. -/
def sliceFromM (buf : List UInt8) (i : Nat) : Except Unit (List UInt8) :=
  if i ≤ buf.length then .ok (buf.drop i) else .error ()

/-- Slice `&buf[i..j]` with Rust panic semantics. -/
def sliceM (buf : List UInt8) (i j : Nat) : Except Unit (List UInt8) :=
  if i ≤ j ∧ j ≤ buf.length then .ok ((buf.take j).drop i) else .error ()

/-- The extension-scanning `while` loop of `parse_sni` (lines 193–215).
`ext_end = pos + ext_len` is fixed before the loop. -/
def findSniF (fuel : Nat) (hello : List UInt8) (ext_end pos : Nat) :
    Except Unit (Option (List Char)) :=
  match fuel with
  | 0 => .ok none
  | fuel + 1 =>
  if pos + 4 ≤ ext_end ∧ pos + 4 ≤ hello.length then do
    let t0 ← idxM hello pos
    let t1 ← idxM hello (pos + 1)
    let l0 ← idxM hello (pos + 2)
    let l1 ← idxM hello (pos + 3)
    let ext_type := t0.toNat * 256 + t1.toNat
    let ext_data_len := l0.toNat * 256 + l1.toNat
    let pos2 := pos + 4
    if ext_type = 0 then do
      if pos2 + ext_data_len > hello.length then return none
      let sni_data ← sliceM hello pos2 (pos2 + ext_data_len)
      if sni_data.length < 5 then return none
      let n0 ← idxM sni_data 3
      let n1 ← idxM sni_data 4
      let name_len := n0.toNat * 256 + n1.toNat
      if sni_data.length < 5 + name_len then return none
      let name ← sliceM sni_data 5 (5 + name_len)
      return (utf8Decode? name)
    else findSniF fuel hello ext_end (pos2 + ext_data_len)
  else return none

/-- The extension loop with enough fuel: each iteration advances `pos` by
at least 4, so `ext_end - pos + 1` iterations always suffice. -/
def findSni (hello : List UInt8) (ext_end pos : Nat) :
    Except Unit (Option (List Char)) :=
  findSniF (ext_end - pos + 1) hello ext_end pos

/-- Function `parse_sni` (lines 128–217) in the panic-explicit monad. -/
def parse_sniM (buf : List UInt8) : Except Unit (Option (List Char)) := do
  if buf.length < 5 then return none
  let b0 ← idxM buf 0
  if b0 ≠ 0x16 then return none
  let b3 ← idxM buf 3
  let b4 ← idxM buf 4
  let record_len := b3.toNat * 256 + b4.toNat
  if buf.length < 5 + record_len then return none
  let handshake ← sliceFromM buf 5
  if handshake.isEmpty then return none
  let h0 ← idxM handshake 0
  if h0 ≠ 0x01 then return none
  if handshake.length < 4 then return none
  let h1 ← idxM handshake 1
  let h2 ← idxM handshake 2
  let h3 ← idxM handshake 3
  let hello_len := h1.toNat * 65536 + h2.toNat * 256 + h3.toNat
  if handshake.length < 4 + hello_len then return none
  let hello ← sliceFromM handshake 4
  if hello.length < 34 then return none
  let pos := 34
  if pos ≥ hello.length then return none
  let sess ← idxM hello pos
  let pos := pos + 1 + sess.toNat
  if pos + 2 > hello.length then return none
  let c0 ← idxM hello pos
  let c1 ← idxM hello (pos + 1)
  let cipher_len := c0.toNat * 256 + c1.toNat
  let pos := pos + 2 + cipher_len
  if pos ≥ hello.length then return none
  let comp ← idxM hello pos
  let pos := pos + 1 + comp.toNat
  if pos + 2 > hello.length then return none
  let e0 ← idxM hello pos
  let e1 ← idxM hello (pos + 1)
  let ext_len := e0.toNat * 256 + e1.toNat
  let pos := pos + 2
  let ext_end := pos + ext_len
  findSni hello ext_end pos

/-- The `record_len` field read by `parse_sni` (big-endian `buf[3..5]`). -/
def sniRecordLen (buf : List UInt8) : Nat :=
  (buf.getD 3 0).toNat * 256 + (buf.getD 4 0).toNat

/-- Function `parse_sni` as the handler calls it.  (`parse_sni_no_panic` below shows
the `.error` branch is unreachable.) -/
def parse_sni (buf : List UInt8) : Option (List Char) :=
  match parse_sniM buf with
  | .ok r => r
  | .error _ => none

/-! ## Connection handlers as traces

`handle_connection` of each binary is modelled as the list of externally
visible actions it performs, in program order.  Non-deterministic I/O
outcomes (dial, certificate minting, TLS handshakes, reads) are supplied
by an environment record; an action that the code *attempts* appears in
the trace before the flag deciding its success is consulted, and a failed
`?` step ends the trace (error return with no further actions). -/

inductive Event where
  /-- A `log_traffic(action, host, path, method, mode, reason)` call. -/
  | logTraffic (action host path method mode reason : List Char)
  /-- A plain-TCP `write_all` to the client (400/403/502/200 responses). -/
  | writeClient (data : List Char)
  /-- A `TcpStream::connect` attempt to `host:port`. -/
  | dialUpstream (host : List Char) (port : Nat)
  /-- A `generate_cert_for_host(host)` attempt. -/
  | mintCert (host : List Char)
  /-- An `acceptor.accept(client)` attempt (inbound TLS handshake). -/
  | tlsAcceptClient
  /-- A `connector.connect(server_name, upstream)` attempt (outbound TLS). -/
  | tlsConnectUpstream (host : List Char)
  /-- A `write_all` inside the inbound TLS stream (the canned 403). -/
  | writeTls (data : List Char)
  /-- Forwarding the first request bytes to the upstream TLS stream. -/
  | forwardUpstream (data : List UInt8)
  /-- Entering the bidirectional copy. -/
  | splice
deriving DecidableEq, Repr

/-- The canned 403 sent inside TLS on a path-gate deny (identical in both
binaries; the Rust `\<newline>` string-continuation escape strips the
newline and the leading whitespace of each continuation line). -/
def blocked403 : List Char :=
  str "HTTP/1.1 403 Forbidden\r\nContent-Type: text/plain\r\nContent-Length: 24\r\nConnection: close\r\n\r\nBlocked by Secure Proxy"

/-- First-request parsing shared by both binaries (prison-network lines
301–314, rust-proxy lines 335–348): lossy-decode the first read, split
the first line on whitespace, default to method `"?"` and path `"/"`. -/
def parseMethodPath (request : List Char) : List Char × List Char :=
  let parts := splitWhitespace (firstLine request)
  if 2 ≤ parts.length then (parts.getD 0 [], parts.getD 1 [])
  else (str "?", str "/")

/-- The shared tail of both handlers, from the first plaintext read
onward (prison-network lines 301–350, rust-proxy lines 335–386):
first-request read, path gate, one ALLOW/BLOCK event, then 403 or
forward-and-splice. -/
def firstRequestPhase (cfg : Config) (hostname : List Char)
    (firstRead : Option (List UInt8)) : List Event :=
  match firstRead with
  | none => []
  | some data =>
    let request_data := data.take 8192
    let (method, path) := parseMethodPath (utf8Lossy request_data)
    let (allowed, reason) := check_request cfg hostname path
    let action := if allowed then str "ALLOW" else str "BLOCK"
    Event.logTraffic action hostname path method cfg.mode reason ::
    if !allowed then [Event.writeTls blocked403]
    else [Event.forwardUpstream request_data, Event.splice]

/-- I/O outcomes for one prison-network connection. -/
structure PnEnv where
  /-- Client stream during `read_connect_request`. -/
  reads : List StreamRead
  /-- Whether `TcpStream::connect(host:port)` succeeds. -/
  dialOk : Bool
  /-- Whether `generate_cert_for_host` succeeds. -/
  mintOk : Bool
  /-- Whether `ServerConfig::builder().with_single_cert` succeeds. -/
  certCfgOk : Bool
  /-- Whether `acceptor.accept(client)` succeeds. -/
  tlsAcceptOk : Bool
  /-- Whether `hostname.try_into()` (rustls `ServerName`) succeeds. -/
  serverNameOk : Bool
  /-- Whether `connector.connect(...)` succeeds. -/
  tlsConnectOk : Bool
  /-- First read of the inbound plaintext stream (`none` = I/O error). -/
  firstRead : Option (List UInt8)
deriving DecidableEq, Repr

/-- Function `handle_connection` of prison-network (lines 234–351). -/
def pn_handle (cfg : Config) (env : PnEnv) : List Event :=
  match pn_readConnect env.reads with
  | .error _ => []
  | .ok none => [Event.writeClient (str "HTTP/1.1 400 Bad Request\r\n\r\n")]
  | .ok (some (hostname, port)) =>
    let (host_allowed, reason) := check_host_allowed cfg hostname
    if !host_allowed then
      [Event.logTraffic (str "BLOCK") hostname (str "/") (str "CONNECT") cfg.mode reason,
       Event.writeClient (str "HTTP/1.1 403 Forbidden\r\nContent-Type: text/plain\r\n\r\nHost not allowed")]
    else
      Event.dialUpstream hostname port ::
      if !env.dialOk then
        [Event.writeClient (str "HTTP/1.1 502 Bad Gateway\r\n\r\nFailed to connect to " ++ hostname)]
      else
        Event.writeClient (str "HTTP/1.1 200 Connection Established\r\n\r\n") ::
        Event.mintCert hostname ::
        if !env.mintOk then []
        else if !env.certCfgOk then []
        else
          Event.tlsAcceptClient ::
          if !env.tlsAcceptOk then []
          else if !env.serverNameOk then []
          else
            Event.tlsConnectUpstream hostname ::
            if !env.tlsConnectOk then []
            else firstRequestPhase cfg hostname env.firstRead

/-- I/O outcomes for one rust-proxy connection. -/
structure RpEnv where
  /-- Result of the single 4096-byte `peek` (`none` = I/O error). -/
  peeked : Option (List UInt8)
  /-- Whether `generate_cert_for_host` succeeds. -/
  mintOk : Bool
  /-- Whether `ServerConfig::builder().with_single_cert` succeeds. -/
  certCfgOk : Bool
  /-- Whether `acceptor.accept(client)` succeeds. -/
  tlsAcceptOk : Bool
  /-- Whether `TcpStream::connect(host:443)` succeeds. -/
  dialOk : Bool
  /-- Whether `hostname.try_into()` (rustls `ServerName`) succeeds. -/
  serverNameOk : Bool
  /-- Whether `connector.connect(...)` succeeds. -/
  tlsConnectOk : Bool
  /-- First read of the inbound plaintext stream (`none` = I/O error). -/
  firstRead : Option (List UInt8)
deriving DecidableEq, Repr

/-- Function `handle_connection` of rust-proxy (lines 279–387): peek, SNI parse,
host gate, then mint → inbound TLS accept → upstream dial → outbound
TLS → shared first-request phase. -/
def rp_handle (cfg : Config) (env : RpEnv) : List Event :=
  match env.peeked with
  | none => []
  | some raw =>
    match parse_sni (raw.take 4096) with
    | none => []
    | some hostname =>
      let (host_allowed, reason) := check_host_allowed cfg hostname
      if !host_allowed then
        [Event.logTraffic (str "BLOCK") hostname (str "/") (str "CONNECT") cfg.mode reason]
      else
        Event.mintCert hostname ::
        if !env.mintOk then []
        else if !env.certCfgOk then []
        else
          Event.tlsAcceptClient ::
          if !env.tlsAcceptOk then []
          else
            Event.dialUpstream hostname 443 ::
            if !env.dialOk then []
            else if !env.serverNameOk then []
            else
              Event.tlsConnectUpstream hostname ::
              if !env.tlsConnectOk then []
              else firstRequestPhase cfg hostname env.firstRead

/-! ### Trace observations -/

/-- Is this a `log_traffic` call (a terminal traffic event)? -/
def isLogEvent : Event → Bool
  | .logTraffic _ _ _ _ _ _ => true
  | _ => false

/-- Is this a `log_traffic` call with action BLOCK? -/
def isBlockEvent : Event → Bool
  | .logTraffic action _ _ _ _ _ => action == str "BLOCK"
  | _ => false

/-- Is this a `TcpStream::connect` attempt? -/
def isDialEvent : Event → Bool
  | .dialUpstream _ _ => true
  | _ => false

/-- Is this a `generate_cert_for_host` attempt? -/
def isMintEvent : Event → Bool
  | .mintCert _ => true
  | _ => false

/-- Is this an inbound TLS accept attempt? -/
def isTlsAcceptEvent : Event → Bool
  | .tlsAcceptClient => true
  | _ => false

/-- Number of `log_traffic` calls in a trace. -/
def countLog (tr : List Event) : Nat := tr.countP isLogEvent

/-- Index of the first event satisfying `p`. -/
def firstIdx (p : Event → Bool) : List Event → Option Nat
  | [] => none
  | e :: tr => if p e then some 0 else (firstIdx p tr).map (· + 1)

/-! ## Concrete sample inputs (used by witnesses and counterexamples) -/

/-- A minimal TLS ClientHello (70 bytes) whose SNI extension carries the
host name `evil.test`. -/
def sampleHello : List UInt8 :=
  [0x16, 0x03, 0x01, 0x00, 0x41,
   0x01, 0x00, 0x00, 0x3D,
   0x03, 0x03,
   0, 0, 0, 0, 0, 0, 0, 0, 0, 0, 0, 0, 0, 0, 0, 0,
   0, 0, 0, 0, 0, 0, 0, 0, 0, 0, 0, 0, 0, 0, 0, 0,
   0x00,
   0x00, 0x02, 0x13, 0x01,
   0x01, 0x00,
   0x00, 0x12,
   0x00, 0x00, 0x00, 0x0E,
   0x00, 0x0C, 0x00, 0x00, 0x09,
   0x65, 0x76, 0x69, 0x6C, 0x2E, 0x74, 0x65, 0x73, 0x74]

/-- Enforce-mode configuration allowing only `allowed.test`. -/
def cfgEnforce : Config := ⟨str "enforce", [⟨str "allowed.test", []⟩]⟩

/-- The default configuration (`Config::default()`): monitor, no rules. -/
def cfgMonitor : Config := ⟨str "monitor", []⟩

/-- A prison-network connection sending `CONNECT blocked.test:443`. -/
def pnEnvBlocked : PnEnv :=
  ⟨[.data (strBytes "CONNECT blocked.test:443 HTTP/1.1\r\nHost: blocked.test\r\n\r\n")],
   true, true, true, true, true, true, some (strBytes "GET / HTTP/1.1\r\n\r\n")⟩

/-- A prison-network connection sending a plain GET instead of CONNECT. -/
def pnEnvBadReq : PnEnv :=
  ⟨[.data (strBytes "GET / HTTP/1.1\r\n\r\n")],
   true, true, true, true, true, true, some (strBytes "GET / HTTP/1.1\r\n\r\n")⟩

/-- A rust-proxy connection for `evil.test` where every I/O step succeeds. -/
def rpEnvGood : RpEnv :=
  ⟨some sampleHello, true, true, true, true, true, true,
   some (strBytes "GET / HTTP/1.1\r\n\r\n")⟩

/-- All pipeline steps of a prison-network connection succeed through the
first-request read. -/
def pnPipelineOk (env : PnEnv) : Prop :=
  env.dialOk = true ∧ env.mintOk = true ∧ env.certCfgOk = true ∧
  env.tlsAcceptOk = true ∧ env.serverNameOk = true ∧ env.tlsConnectOk = true ∧
  env.firstRead.isSome = true

/-- All pipeline steps of a rust-proxy connection succeed through the
first-request read. -/
def rpPipelineOk (env : RpEnv) : Prop :=
  env.mintOk = true ∧ env.certCfgOk = true ∧ env.tlsAcceptOk = true ∧
  env.dialOk = true ∧ env.serverNameOk = true ∧ env.tlsConnectOk = true ∧
  env.firstRead.isSome = true

/-- The stream contains no I/O error. -/
def allData : List StreamRead → Bool
  | [] => true
  | .ioErr :: _ => false
  | .data _ :: rest => allData rest

/-- All data bytes of the stream, in order. -/
def flattenData : List StreamRead → List UInt8
  | [] => []
  | .ioErr :: rest => flattenData rest
  | .data c :: rest => c ++ flattenData rest

/-- A prison-network connection whose stream ends before `\r\n\r\n`. -/
def pnEnvEof : PnEnv :=
  ⟨[.data (strBytes "CONNECT half")], true, true, true, true, true, true, none⟩

/-- Did the computation avoid the panic branch? -/
def exIsOk {α : Type} : Except Unit α → Bool
  | .ok _ => true
  | .error _ => false

/-- A prison-network connection whose first read fails with an I/O error. -/
def pnEnvIoErr : PnEnv :=
  ⟨[.ioErr], true, true, true, true, true, true, none⟩

/-- A prison-network connection for the allowed host whose certificate
minting fails. -/
def pnEnvMintFail : PnEnv :=
  ⟨[.data (strBytes "CONNECT allowed.test:443 HTTP/1.1\r\n\r\n")],
   true, false, true, true, true, true, some (strBytes "GET / HTTP/1.1\r\n\r\n")⟩

/-- A rust-proxy connection whose peek fails with an I/O error. -/
def rpEnvNoPeek : RpEnv :=
  ⟨none, true, true, true, true, true, true, none⟩

/-- A rust-proxy connection whose peeked bytes are not a TLS ClientHello. -/
def rpEnvBadSni : RpEnv :=
  ⟨some (strBytes "GET / HTTP/1.1\r\n"), true, true, true, true, true, true, none⟩

/-- A rust-proxy connection for `evil.test` whose inbound TLS handshake
fails. -/
def rpEnvTlsFail : RpEnv :=
  ⟨some sampleHello, true, true, false, true, true, true,
   some (strBytes "GET / HTTP/1.1\r\n\r\n")⟩

/-! ## Theorems -/

/-- Claim C2: In Monitor mode (`mode = "monitor"`) both `check_host_allowed`
and `check_request` return `allowed = true` with the Monitor-Mode reason,
for every host, path and rule list. -/
theorem monitor_mode_always_allows (cfg : Config) (host path : List Char)
    (hmode : cfg.mode = str "monitor") :
    check_host_allowed cfg host = (true, str "Monitor Mode") ∧
    check_request cfg host path = (true, str "Monitor Mode") := by
  have hne : cfg.mode ≠ str "enforce" := by rw [hmode]; decide
  exact ⟨by simp [check_host_allowed, hne], by simp [check_request, hne]⟩

/-- Witness for `monitor_mode_always_allows` at the default configuration. -/
theorem monitor_mode_always_allows_witness :
    check_host_allowed cfgMonitor (str "example.com") = (true, str "Monitor Mode") ∧
    check_request cfgMonitor (str "example.com") (str "/") = (true, str "Monitor Mode") :=
  monitor_mode_always_allows cfgMonitor (str "example.com") (str "/") (by decide)

/-- Claim C10: Any mode string other than exactly `"enforce"` (e.g.
`"Enforce"`, `"enforced"`) makes both checks behave as Monitor mode:
`allowed = true` for every host and path — an unrecognized mode fails
open. -/
theorem unknown_mode_fails_open (cfg : Config) (host path : List Char)
    (hmode : cfg.mode ≠ str "enforce") :
    check_host_allowed cfg host = (true, str "Monitor Mode") ∧
    check_request cfg host path = (true, str "Monitor Mode") :=
  ⟨by simp [check_host_allowed, hmode], by simp [check_request, hmode]⟩

/-- Witness for `unknown_mode_fails_open`: a capitalized `"Enforce"` mode
with a non-empty rule list still allows an unlisted host. -/
theorem unknown_mode_fails_open_witness :
    check_host_allowed ⟨str "Enforce", [⟨str "allowed.test", []⟩]⟩ (str "evil.test")
      = (true, str "Monitor Mode") ∧
    check_request ⟨str "Enforce", [⟨str "allowed.test", []⟩]⟩ (str "evil.test") (str "/")
      = (true, str "Monitor Mode") :=
  unknown_mode_fails_open ⟨str "Enforce", [⟨str "allowed.test", []⟩]⟩
    (str "evil.test") (str "/") (by decide)

/-- Claim C3: The host gate matches exactly equality or a `"." + host`
suffix; a rule for `example.com` matches `api.example.com` and
`a.b.example.com` but neither `badexample.com` nor `example.com.evil.com`;
and in Enforce mode a host matching no rule yields
`(false, "Host Not Allowed")`. -/
theorem host_gate_suffix_semantics (rule : HostRule) (host : List Char) (cfg : Config)
    (hmode : cfg.mode = str "enforce")
    (hnone : ∀ r ∈ cfg.allowed_rules, hostMatches r host = false) :
    (hostMatches rule host = true ↔
      host = rule.host ∨ ∃ pre, host = pre ++ str "." ++ rule.host) ∧
    check_host_allowed cfg host = (false, str "Host Not Allowed") ∧
    hostMatches ⟨str "example.com", []⟩ (str "api.example.com") = true ∧
    hostMatches ⟨str "example.com", []⟩ (str "a.b.example.com") = true ∧
    hostMatches ⟨str "example.com", []⟩ (str "badexample.com") = false ∧
    hostMatches ⟨str "example.com", []⟩ (str "example.com.evil.com") = false := by
  refine ⟨?_, ?_, by decide, by decide, by decide, by decide⟩
  · unfold hostMatches
    simp only [Bool.or_eq_true, beq_iff_eq, List.isSuffixOf_iff_suffix]
    constructor
    · rintro (h | ⟨t, ht⟩)
      · exact Or.inl h
      · exact Or.inr ⟨t, by rw [← ht, List.append_assoc]⟩
    · rintro (h | ⟨pre, hpre⟩)
      · exact Or.inl h
      · exact Or.inr ⟨pre, by rw [hpre, List.append_assoc]⟩
  · have hfind : cfg.allowed_rules.find? (fun r => hostMatches r host) = none :=
      List.find?_eq_none.mpr (fun r hr => by simp [hnone r hr])
    simp [check_host_allowed, hmode, hfind]

/-- Witness for `host_gate_suffix_semantics` at the enforce configuration
and the unlisted host `evil.test`. -/
theorem host_gate_suffix_semantics_witness :
    (hostMatches ⟨str "allowed.test", []⟩ (str "evil.test") = true ↔
      str "evil.test" = str "allowed.test" ∨
      ∃ pre, str "evil.test" = pre ++ str "." ++ str "allowed.test") ∧
    check_host_allowed cfgEnforce (str "evil.test") = (false, str "Host Not Allowed") ∧
    hostMatches ⟨str "example.com", []⟩ (str "api.example.com") = true ∧
    hostMatches ⟨str "example.com", []⟩ (str "a.b.example.com") = true ∧
    hostMatches ⟨str "example.com", []⟩ (str "badexample.com") = false ∧
    hostMatches ⟨str "example.com", []⟩ (str "example.com.evil.com") = false :=
  host_gate_suffix_semantics ⟨str "allowed.test", []⟩ (str "evil.test") cfgEnforce
    (by decide) (by decide)

/-- Claim C4: In Enforce mode with `r` the first matching rule (in snapshot
insertion order, as computed by `find?`): empty `allowed_paths` allows
every path with reason Host Match; otherwise the request is allowed with
reason Path Match exactly when some entry is a literal prefix of the
path, and denied with reason Path Not Allowed otherwise. -/
theorem path_gate_semantics (cfg : Config) (host path : List Char) (r : HostRule)
    (hmode : cfg.mode = str "enforce")
    (hfind : cfg.allowed_rules.find? (fun rule => hostMatches rule host) = some r) :
    (r.allowed_paths = [] → check_request cfg host path = (true, str "Host Match")) ∧
    ((∃ p ∈ r.allowed_paths, p.isPrefixOf path = true) →
      check_request cfg host path = (true, str "Path Match")) ∧
    (r.allowed_paths ≠ [] → (∀ p ∈ r.allowed_paths, p.isPrefixOf path = false) →
      check_request cfg host path = (false, str "Path Not Allowed")) := by
  refine ⟨fun hempty => ?_, fun ⟨p, hp, hpref⟩ => ?_, fun hne hall => ?_⟩
  · simp [check_request, hmode, hfind, hempty]
  · have hemp : r.allowed_paths.isEmpty = false := by
      cases hb : r.allowed_paths with
      | nil => exact absurd (hb ▸ hp) (List.not_mem_nil p)
      | cons a l => simp [hb]
    have hany : r.allowed_paths.any (fun q => q.isPrefixOf path) = true :=
      List.any_eq_true.mpr ⟨p, hp, hpref⟩
    simp [check_request, hmode, hfind, hemp, hany]
  · have hemp : r.allowed_paths.isEmpty = false := by
      cases hb : r.allowed_paths with
      | nil => exact absurd hb hne
      | cons a l => simp [hb]
    have hany : r.allowed_paths.any (fun q => q.isPrefixOf path) = false := by
      rw [Bool.eq_false_iff]
      intro hcontra
      obtain ⟨p, hp, hpref⟩ := List.any_eq_true.mp hcontra
      exact absurd hpref (by simp [hall p hp])
    simp [check_request, hmode, hfind, hemp, hany]

/-- Witness for `path_gate_semantics`: rules `[{host: api.test,
allowed_paths: [/v1/]}]`, requests for `/v1/users` and `/v2/admin`, and
an empty-path rule for `open.test`. -/
theorem path_gate_semantics_witness :
    check_request ⟨str "enforce", [⟨str "api.test", [str "/v1/"]⟩]⟩
      (str "api.test") (str "/v1/users") = (true, str "Path Match") ∧
    check_request ⟨str "enforce", [⟨str "api.test", [str "/v1/"]⟩]⟩
      (str "api.test") (str "/v2/admin") = (false, str "Path Not Allowed") ∧
    check_request ⟨str "enforce", [⟨str "open.test", []⟩]⟩
      (str "open.test") (str "/anything") = (true, str "Host Match") := by
  refine ⟨?_, ?_, ?_⟩
  · exact (path_gate_semantics ⟨str "enforce", [⟨str "api.test", [str "/v1/"]⟩]⟩
      (str "api.test") (str "/v1/users") ⟨str "api.test", [str "/v1/"]⟩
      (by decide) (by decide)).2.1 ⟨str "/v1/", by decide⟩
  · exact (path_gate_semantics ⟨str "enforce", [⟨str "api.test", [str "/v1/"]⟩]⟩
      (str "api.test") (str "/v2/admin") ⟨str "api.test", [str "/v1/"]⟩
      (by decide) (by decide)).2.2 (by decide) (by decide)
  · exact (path_gate_semantics ⟨str "enforce", [⟨str "open.test", []⟩]⟩
      (str "open.test") (str "/anything") ⟨str "open.test", []⟩
      (by decide) (by decide)).1 (by decide)

/-- Claim C1: In Enforce mode, a connection whose discovered hostname fails
the host gate emits one BLOCK event and triggers neither a
`TcpStream::connect` nor a `generate_cert_for_host` attempt, in both
variants: the handler returns at the gate. -/
theorem denied_host_no_dial_no_mint (cfg : Config) (envP : PnEnv) (envR : RpEnv)
    (hostP hostR : List Char) (portP : Nat) (raw : List UInt8)
    (hmode : cfg.mode = str "enforce")
    (hreadP : pn_readConnect envP.reads = .ok (some (hostP, portP)))
    (hgateP : (check_host_allowed cfg hostP).1 = false)
    (hpeek : envR.peeked = some raw)
    (hsni : parse_sni (raw.take 4096) = some hostR)
    (hgateR : (check_host_allowed cfg hostR).1 = false) :
    ((pn_handle cfg envP).countP isBlockEvent = 1 ∧
     (pn_handle cfg envP).countP isDialEvent = 0 ∧
     (pn_handle cfg envP).countP isMintEvent = 0) ∧
    ((rp_handle cfg envR).countP isBlockEvent = 1 ∧
     (rp_handle cfg envR).countP isDialEvent = 0 ∧
     (rp_handle cfg envR).countP isMintEvent = 0) := by
  constructor
  · rcases hch : check_host_allowed cfg hostP with ⟨allowed, reason⟩
    rw [hch] at hgateP
    simp only at hgateP
    subst hgateP
    simp [pn_handle, hreadP, hch, isBlockEvent, isDialEvent, isMintEvent,
      List.countP_cons, List.countP_nil]
  · rcases hch : check_host_allowed cfg hostR with ⟨allowed, reason⟩
    rw [hch] at hgateR
    simp only at hgateR
    subst hgateR
    simp [rp_handle, hpeek, hsni, hch, isBlockEvent, isDialEvent, isMintEvent,
      List.countP_cons, List.countP_nil]

/-- Witness for `denied_host_no_dial_no_mint`: enforce config allowing
only `allowed.test`, a CONNECT for `blocked.test` and an SNI ClientHello
for `evil.test`. -/
theorem denied_host_no_dial_no_mint_witness :
    ((pn_handle cfgEnforce pnEnvBlocked).countP isBlockEvent = 1 ∧
     (pn_handle cfgEnforce pnEnvBlocked).countP isDialEvent = 0 ∧
     (pn_handle cfgEnforce pnEnvBlocked).countP isMintEvent = 0) ∧
    ((rp_handle cfgEnforce rpEnvGood).countP isBlockEvent = 1 ∧
     (rp_handle cfgEnforce rpEnvGood).countP isDialEvent = 0 ∧
     (rp_handle cfgEnforce rpEnvGood).countP isMintEvent = 0) :=
  denied_host_no_dial_no_mint cfgEnforce pnEnvBlocked rpEnvGood
    (str "blocked.test") (str "evil.test") 443 sampleHello
    (by decide) (by rfl) (by decide) (by rfl) (by rfl) (by decide)

/-- Claim C5, counterexample: The claim says the upstream dial happens before
the leaf is minted and before the inbound TLS handshake.  On a connection
that passes the host gate with every step succeeding, the rust-proxy
trace places the mint at index 0 and the inbound TLS accept at index 1,
and the upstream dial only at index 2 — after both. -/
theorem sni_dial_order_counterexample :
    (check_host_allowed cfgMonitor (str "evil.test")).1 = true ∧
    firstIdx isMintEvent (rp_handle cfgMonitor rpEnvGood) = some 0 ∧
    firstIdx isTlsAcceptEvent (rp_handle cfgMonitor rpEnvGood) = some 1 ∧
    firstIdx isDialEvent (rp_handle cfgMonitor rpEnvGood) = some 2 := by
  exact ⟨by decide, by decide, by decide, by decide⟩

/-- Claim C5, amended: In the SNI variant, whenever the upstream dial
occurs it comes strictly after the leaf mint and after the inbound TLS
accept (the reverse of the claimed order). -/
theorem sni_mint_accept_precede_dial (cfg : Config) (env : RpEnv) (i : Nat)
    (hdial : firstIdx isDialEvent (rp_handle cfg env) = some i) :
    ∃ j k, firstIdx isMintEvent (rp_handle cfg env) = some j ∧ j < i ∧
      firstIdx isTlsAcceptEvent (rp_handle cfg env) = some k ∧ k < i := by
  rcases env with ⟨peeked, mintOk, certCfgOk, tlsAcceptOk, dialOk, serverNameOk, tlsConnectOk, firstRead⟩
  cases peeked with
  | none => simp [rp_handle, firstIdx] at hdial
  | some raw =>
    cases hp : parse_sni (raw.take 4096) with
    | none => simp [rp_handle, hp, firstIdx] at hdial
    | some host =>
      rcases hch : check_host_allowed cfg host with ⟨allowed, reason⟩
      cases allowed with
      | false => simp [rp_handle, hp, hch, firstIdx, isDialEvent] at hdial
      | true =>
        cases mintOk with
        | false =>
          simp [rp_handle, hp, hch, firstIdx, isDialEvent, isMintEvent] at hdial
        | true =>
          cases certCfgOk with
          | false =>
            simp [rp_handle, hp, hch, firstIdx, isDialEvent, isMintEvent] at hdial
          | true =>
            cases tlsAcceptOk with
            | false =>
              simp [rp_handle, hp, hch, firstIdx, isDialEvent, isMintEvent,
                isTlsAcceptEvent] at hdial
            | true =>
              have hi : i = 2 := by
                simp [rp_handle, hp, hch, firstIdx, isDialEvent, isMintEvent,
                  isTlsAcceptEvent] at hdial
                omega
              subst hi
              refine ⟨0, 1, ?_, by omega, ?_, by omega⟩
              · simp [rp_handle, hp, hch, firstIdx, isMintEvent]
              · simp [rp_handle, hp, hch, firstIdx, isMintEvent, isTlsAcceptEvent]

/-- Witness for `sni_mint_accept_precede_dial` on the all-success trace. -/
theorem sni_mint_accept_precede_dial_witness :
    ∃ j k, firstIdx isMintEvent (rp_handle cfgMonitor rpEnvGood) = some j ∧ j < 2 ∧
      firstIdx isTlsAcceptEvent (rp_handle cfgMonitor rpEnvGood) = some k ∧ k < 2 :=
  sni_mint_accept_precede_dial cfgMonitor rpEnvGood 2 (by decide)

/-- Claim C6, counterexample: A connection whose bytes are a plain `GET`
instead of a CONNECT request is answered with 400 and produces zero
traffic events, refuting "exactly one terminal traffic event ... never
zero ... including parse failures". -/
theorem one_event_per_connection_counterexample :
    pn_handle cfgMonitor pnEnvBadReq =
      [Event.writeClient (str "HTTP/1.1 400 Bad Request\r\n\r\n")] ∧
    countLog (pn_handle cfgMonitor pnEnvBadReq) = 0 := by
  exact ⟨by decide, by decide⟩

/-- The `log_traffic` calls in the shared first-request phase: exactly one
when the first read succeeded, none on a read error. -/
theorem countLog_firstRequestPhase (cfg : Config) (h : List Char)
    (fr : Option (List UInt8)) :
    List.countP isLogEvent (firstRequestPhase cfg h fr) = if fr.isSome then 1 else 0 := by
  cases fr with
  | none => simp [firstRequestPhase]
  | some data =>
    rcases hmp : parseMethodPath (utf8Lossy (data.take 8192)) with ⟨m, pa⟩
    rcases hcr : check_request cfg h pa with ⟨allowed, reason⟩
    cases allowed <;>
      simp [firstRequestPhase, hmp, hcr, List.countP_cons, isLogEvent]

/-- The `log_traffic` calls of a prison-network connection, on every path. -/
theorem countLog_pn (cfg : Config) (env : PnEnv) :
    countLog (pn_handle cfg env) =
      match pn_readConnect env.reads with
      | .error _ => 0
      | .ok none => 0
      | .ok (some (h, _)) =>
        if (check_host_allowed cfg h).1 = false then 1
        else if env.dialOk && env.mintOk && env.certCfgOk && env.tlsAcceptOk &&
            env.serverNameOk && env.tlsConnectOk && env.firstRead.isSome then 1
        else 0 := by
  rcases env with ⟨reads, d, m, cc, ta, sn, tc, fr⟩
  cases hrc : pn_readConnect reads with
  | error e => simp [pn_handle, hrc, countLog]
  | ok o =>
    cases o with
    | none => simp [pn_handle, hrc, countLog, List.countP_cons, isLogEvent]
    | some hp =>
      obtain ⟨h, p⟩ := hp
      rcases hch : check_host_allowed cfg h with ⟨allowed, reason⟩
      cases allowed with
      | false =>
        simp [pn_handle, hrc, hch, countLog, List.countP_cons, isLogEvent]
      | true =>
        cases d <;> cases m <;> cases cc <;> cases ta <;> cases sn <;> cases tc <;>
          simp [pn_handle, hrc, hch, countLog, List.countP_cons, isLogEvent,
            countLog_firstRequestPhase]

/-- The `log_traffic` calls of a rust-proxy connection, on every path. -/
theorem countLog_rp (cfg : Config) (env : RpEnv) :
    countLog (rp_handle cfg env) =
      match env.peeked with
      | none => 0
      | some raw =>
        match parse_sni (raw.take 4096) with
        | none => 0
        | some h =>
          if (check_host_allowed cfg h).1 = false then 1
          else if env.mintOk && env.certCfgOk && env.tlsAcceptOk && env.dialOk &&
              env.serverNameOk && env.tlsConnectOk && env.firstRead.isSome then 1
          else 0 := by
  rcases env with ⟨peeked, m, cc, ta, d, sn, tc, fr⟩
  cases peeked with
  | none => simp [rp_handle, countLog]
  | some raw =>
    cases hp : parse_sni (raw.take 4096) with
    | none => simp [rp_handle, hp, countLog]
    | some host =>
      rcases hch : check_host_allowed cfg host with ⟨allowed, reason⟩
      cases allowed with
      | false =>
        simp [rp_handle, hp, hch, countLog, List.countP_cons, isLogEvent]
      | true =>
        cases m <;> cases cc <;> cases ta <;> cases d <;> cases sn <;> cases tc <;>
          simp [rp_handle, hp, hch, countLog, List.countP_cons, isLogEvent,
            countLog_firstRequestPhase]

/-- Claim C6, amended: Every connection emits at most one terminal traffic
event, and exactly one precisely on connections where the host gate
denies or where every pipeline step through the first-request read
succeeds; failure paths (CONNECT/SNI parse failures, I/O errors during
discovery, and dial/mint/TLS/read failures after the gate) emit zero,
not one. -/
theorem at_most_one_traffic_event (cfg : Config) (envP : PnEnv) (envR : RpEnv)
    (host hostR : List Char) (port : Nat) (raw : List UInt8) :
    countLog (pn_handle cfg envP) ≤ 1 ∧
    countLog (rp_handle cfg envR) ≤ 1 ∧
    (pn_readConnect envP.reads = .ok (some (host, port)) →
      ((check_host_allowed cfg host).1 = false ∨ pnPipelineOk envP) →
      countLog (pn_handle cfg envP) = 1) ∧
    (envR.peeked = some raw → parse_sni (raw.take 4096) = some hostR →
      ((check_host_allowed cfg hostR).1 = false ∨ rpPipelineOk envR) →
      countLog (rp_handle cfg envR) = 1) ∧
    (pn_readConnect envP.reads = .ok none → countLog (pn_handle cfg envP) = 0) ∧
    (pn_readConnect envP.reads = .error () → countLog (pn_handle cfg envP) = 0) ∧
    (pn_readConnect envP.reads = .ok (some (host, port)) →
      (check_host_allowed cfg host).1 = true → ¬ pnPipelineOk envP →
      countLog (pn_handle cfg envP) = 0) ∧
    (envR.peeked = none → countLog (rp_handle cfg envR) = 0) ∧
    (envR.peeked = some raw → parse_sni (raw.take 4096) = none →
      countLog (rp_handle cfg envR) = 0) ∧
    (envR.peeked = some raw → parse_sni (raw.take 4096) = some hostR →
      (check_host_allowed cfg hostR).1 = true → ¬ rpPipelineOk envR →
      countLog (rp_handle cfg envR) = 0) := by
  refine ⟨?_, ?_, ?_, ?_, ?_, ?_, ?_, ?_, ?_, ?_⟩
  · rw [countLog_pn]
    cases pn_readConnect envP.reads with
    | error e => simp
    | ok o =>
      cases o with
      | none => simp
      | some hp =>
        obtain ⟨h, p⟩ := hp
        dsimp only
        split
        · omega
        · split <;> omega
  · rw [countLog_rp]
    cases envR.peeked with
    | none => simp
    | some raw2 =>
      dsimp only
      cases parse_sni (raw2.take 4096) with
      | none => simp
      | some h =>
        dsimp only
        split
        · omega
        · split <;> omega
  · intro hpn hcase
    rw [countLog_pn, hpn]
    dsimp only
    rcases hcase with hgate | hok
    · simp [hgate]
    · obtain ⟨h1, h2, h3, h4, h5, h6, h7⟩ := hok
      split
      · rfl
      · simp [h1, h2, h3, h4, h5, h6, h7]
  · intro hpeek hsni hcase
    rw [countLog_rp, hpeek]
    dsimp only
    rw [hsni]
    dsimp only
    rcases hcase with hgate | hok
    · simp [hgate]
    · obtain ⟨h1, h2, h3, h4, h5, h6, h7⟩ := hok
      split
      · rfl
      · simp [h1, h2, h3, h4, h5, h6, h7]
  · intro hpn
    rw [countLog_pn, hpn]
  · intro hpn
    rw [countLog_pn, hpn]
  · intro hpn hgate hfail
    rw [countLog_pn, hpn]
    dsimp only
    have hchain : ¬ (envP.dialOk && envP.mintOk && envP.certCfgOk && envP.tlsAcceptOk &&
        envP.serverNameOk && envP.tlsConnectOk && envP.firstRead.isSome) = true := by
      intro hc
      refine hfail ⟨?_, ?_, ?_, ?_, ?_, ?_, ?_⟩ <;> simp_all
    rw [if_neg (by simp [hgate]), if_neg hchain]
  · intro hpk
    rw [countLog_rp, hpk]
  · intro hpk hsni
    rw [countLog_rp, hpk]
    dsimp only
    rw [hsni]
  · intro hpk hsni hgate hfail
    rw [countLog_rp, hpk]
    dsimp only
    rw [hsni]
    dsimp only
    have hchain : ¬ (envR.mintOk && envR.certCfgOk && envR.tlsAcceptOk && envR.dialOk &&
        envR.serverNameOk && envR.tlsConnectOk && envR.firstRead.isSome) = true := by
      intro hc
      refine hfail ⟨?_, ?_, ?_, ?_, ?_, ?_, ?_⟩ <;> simp_all
    rw [if_neg (by simp [hgate]), if_neg hchain]

/-- Witness for `at_most_one_traffic_event`: the blocked CONNECT and the
all-success SNI connection emit exactly one event each, and a malformed
request, an I/O error, a mint failure, a failed peek, non-TLS bytes and
a failed inbound handshake each emit zero. -/
theorem at_most_one_traffic_event_witness :
    countLog (pn_handle cfgEnforce pnEnvBlocked) = 1 ∧
    countLog (rp_handle cfgMonitor rpEnvGood) = 1 ∧
    countLog (pn_handle cfgMonitor pnEnvBadReq) = 0 ∧
    countLog (pn_handle cfgMonitor pnEnvIoErr) = 0 ∧
    countLog (pn_handle cfgEnforce pnEnvMintFail) = 0 ∧
    countLog (rp_handle cfgMonitor rpEnvNoPeek) = 0 ∧
    countLog (rp_handle cfgMonitor rpEnvBadSni) = 0 ∧
    countLog (rp_handle cfgMonitor rpEnvTlsFail) = 0 :=
  ⟨(at_most_one_traffic_event cfgEnforce pnEnvBlocked rpEnvGood
      (str "blocked.test") (str "evil.test") 443 sampleHello).2.2.1
      (by rfl) (Or.inl (by decide)),
   (at_most_one_traffic_event cfgMonitor pnEnvBlocked rpEnvGood
      (str "blocked.test") (str "evil.test") 443 sampleHello).2.2.2.1
      (by rfl) (by rfl)
      (Or.inr ⟨by rfl, by rfl, by rfl, by rfl, by rfl, by rfl, by rfl⟩),
   (at_most_one_traffic_event cfgMonitor pnEnvBadReq rpEnvGood
      [] [] 0 []).2.2.2.2.1 (by rfl),
   (at_most_one_traffic_event cfgMonitor pnEnvIoErr rpEnvGood
      [] [] 0 []).2.2.2.2.2.1 (by rfl),
   (at_most_one_traffic_event cfgEnforce pnEnvMintFail rpEnvGood
      (str "allowed.test") [] 443 []).2.2.2.2.2.2.1
      (by rfl) (by decide) (fun h => Bool.noConfusion h.2.1),
   (at_most_one_traffic_event cfgMonitor pnEnvBadReq rpEnvNoPeek
      [] [] 0 []).2.2.2.2.2.2.2.1 (by rfl),
   (at_most_one_traffic_event cfgMonitor pnEnvBadReq rpEnvBadSni
      [] [] 0 (strBytes "GET / HTTP/1.1\r\n")).2.2.2.2.2.2.2.2.1
      (by rfl) (by rfl),
   (at_most_one_traffic_event cfgMonitor pnEnvBadReq rpEnvTlsFail
      [] (str "evil.test") 0 sampleHello).2.2.2.2.2.2.2.2.2
      (by rfl) (by rfl) (by decide) (fun h => Bool.noConfusion h.2.2.1)⟩

/-- The `rfind` model finds nothing when the character is absent. -/
theorem lastIdxOf_eq_none (c : Char) (l : List Char) (h : c ∉ l) :
    lastIdxOf c l = none := by
  induction l with
  | nil => rfl
  | cons x xs ih =>
    have hx : ¬ x = c := fun e => h (e ▸ List.mem_cons_self x xs)
    have hxs : c ∉ xs := fun hm => h (List.mem_cons_of_mem _ hm)
    simp [lastIdxOf, ih hxs, hx]

/-- The `rfind` model locates the last occurrence. -/
theorem lastIdxOf_last (c : Char) (a b : List Char) (hb : c ∉ b) :
    lastIdxOf c (a ++ c :: b) = some a.length := by
  induction a with
  | nil => simp [lastIdxOf, lastIdxOf_eq_none c b hb]
  | cons x xs ih => simp [lastIdxOf, ih]

/-- No colon in the authority: the whole token is the host, port 443. -/
theorem connectTarget_no_colon (t : List Char) (ht : ':' ∉ t) :
    connectTarget t = (t, 443) := by
  simp [connectTarget, lastIdxOf_eq_none ':' t ht]

/-- A colon present: split at the last one, `u16`-parse the right part
with `unwrap_or(443)`. -/
theorem connectTarget_last_colon (a b : List Char) (hb : ':' ∉ b) :
    connectTarget (a ++ ':' :: b) = (a, (parseU16? b).getD 443) := by
  have hsplit : a ++ ':' :: b = (a ++ [':']) ++ b := by simp
  have hdrop : (a ++ ':' :: b).drop (a.length + 1) = b := by
    rw [hsplit]
    exact List.drop_left' (by simp)
  have htake : (a ++ ':' :: b).take a.length = a := List.take_left a (':' :: b)
  simp [connectTarget, lastIdxOf_last ':' a b hb, htake, hdrop]

/-- Claim C7: For a well-formed CONNECT request line the authority token is
split at its last colon into host and base-10 `u16` port, the port
defaulting to 443 when no colon is present and when the right part fails
to parse. -/
theorem connect_authority_split (req target v t a b : List Char)
    (rest : List (List Char))
    (hsplit : splitWhitespace (firstLine req) = str "CONNECT" :: target :: v :: rest)
    (ht : ':' ∉ t) (hb : ':' ∉ b) :
    pn_parseConnect req = some (connectTarget target) ∧
    connectTarget t = (t, 443) ∧
    connectTarget (a ++ ':' :: b) = (a, (parseU16? b).getD 443) ∧
    (parseU16? b = none → connectTarget (a ++ ':' :: b) = (a, 443)) := by
  refine ⟨?_, connectTarget_no_colon t ht, connectTarget_last_colon a b hb,
    fun hfail => ?_⟩
  · simp [pn_parseConnect, hsplit]
  · rw [connectTarget_last_colon a b hb, hfail]
    rfl

/-- Witness for `connect_authority_split` on
`CONNECT example.com:8443 HTTP/1.1` and a non-numeric port. -/
theorem connect_authority_split_witness :
    pn_parseConnect (str "CONNECT example.com:8443 HTTP/1.1\r\nHost: h\r\n\r\n")
      = some (connectTarget (str "example.com:8443")) ∧
    connectTarget (str "example.com") = (str "example.com", 443) ∧
    connectTarget (str "example.com" ++ ':' :: str "8443")
      = (str "example.com", (parseU16? (str "8443")).getD 443) ∧
    (parseU16? (str "8443") = none →
      connectTarget (str "example.com" ++ ':' :: str "8443") = (str "example.com", 443)) :=
  connect_authority_split (str "CONNECT example.com:8443 HTTP/1.1\r\nHost: h\r\n\r\n")
    (str "example.com:8443") (str "HTTP/1.1") (str "example.com")
    (str "example.com") (str "8443") [] (by decide) (by decide) (by decide)

/-- The scan `containsSeq` decides the contiguous-subsequence relation. -/
theorem containsSeq_correct (pat l : List UInt8) :
    containsSeq pat l = true ↔ pat <:+: l := by
  induction l with
  | nil => simp [containsSeq, List.isPrefixOf_iff_prefix]
  | cons a rest ih =>
    simp [containsSeq, List.isPrefixOf_iff_prefix, ih, List.infix_cons_iff]

/-- The read loop returns `Ok(None)` whenever the error-free stream has no
`\r\n\r\n` within what fits into the 4096-byte buffer — both when the
stream ends first and when the ceiling is reached first. -/
theorem pn_readLoopF_none (fuel : Nat) :
    ∀ (reads : List StreamRead) (acc : List UInt8),
      acc.length < 4096 → allData reads = true →
      containsSeq crlfcrlf ((acc ++ flattenData reads).take 4096) = false →
      pn_readLoopF fuel acc reads = .ok none := by
  induction fuel with
  | zero =>
    intro reads acc _ _ _
    cases reads with
    | nil => rfl
    | cons r rest => cases r <;> rfl
  | succ fuel ih =>
    intro reads acc hacc hdata hnone
    cases reads with
    | nil => rfl
    | cons r rest =>
      cases r with
      | ioErr => simp [allData] at hdata
      | data c =>
        rw [pn_readLoopF]
        dsimp only
        by_cases hn : min c.length (4096 - acc.length) = 0
        · rw [if_pos hn]
        · rw [if_neg hn]
          have hnle : min c.length (4096 - acc.length) ≤ c.length :=
            Nat.min_le_left _ _
          have hnsp : min c.length (4096 - acc.length) ≤ 4096 - acc.length :=
            Nat.min_le_right _ _
          have hpre : acc ++ c.take (min c.length (4096 - acc.length)) <+:
              acc ++ flattenData (.data c :: rest) := by
            refine ⟨c.drop (min c.length (4096 - acc.length)) ++ flattenData rest, ?_⟩
            simp only [flattenData]
            rw [List.append_assoc acc, ← List.append_assoc (List.take _ c),
              List.take_append_drop]
          have hlen : (acc ++ c.take (min c.length (4096 - acc.length))).length ≤ 4096 := by
            simp [List.length_take]
            omega
          have hc2 : containsSeq crlfcrlf
              (acc ++ c.take (min c.length (4096 - acc.length))) = false := by
            rw [Bool.eq_false_iff]
            intro hcs
            have hinf := (containsSeq_correct _ _).mp hcs
            have hpref2 := List.prefix_take_iff.mpr ⟨hpre, hlen⟩
            have : crlfcrlf <:+: (acc ++ flattenData (.data c :: rest)).take 4096 :=
              hinf.trans hpref2.isInfix
            rw [Bool.eq_false_iff] at hnone
            exact hnone ((containsSeq_correct _ _).mpr this)
          rw [if_neg (by simp [hc2])]
          by_cases hceil : 4096 ≤ (acc ++ c.take (min c.length (4096 - acc.length))).length
          · rw [if_pos hceil]
          · rw [if_neg hceil]
            have hdata2 : allData rest = true := by simpa [allData] using hdata
            by_cases hlt : min c.length (4096 - acc.length) < c.length
            · rw [if_pos hlt]
              apply ih
              · simpa using hceil
              · simpa [allData] using hdata2
              · have heq : acc ++ c.take (min c.length (4096 - acc.length)) ++
                    flattenData (.data (c.drop (min c.length (4096 - acc.length))) :: rest)
                    = acc ++ flattenData (.data c :: rest) := by
                  simp only [flattenData]
                  rw [List.append_assoc acc, ← List.append_assoc (List.take _ c),
                    List.take_append_drop]
                rw [List.append_assoc] at heq ⊢
                rw [heq]
                exact hnone
            · rw [if_neg hlt]
              apply ih
              · simpa using hceil
              · exact hdata2
              · have hcn : c.take (min c.length (4096 - acc.length)) = c :=
                  List.take_of_length_le (by omega)
                have heq : acc ++ c.take (min c.length (4096 - acc.length)) ++
                    flattenData rest = acc ++ flattenData (.data c :: rest) := by
                  simp [flattenData, hcn]
                rw [List.append_assoc] at heq ⊢
                rw [heq]
                exact hnone

/-- Claim C8: The CONNECT parser fails — and the handler answers
`HTTP/1.1 400 Bad Request` and closes — whenever the stream ends or the
4096-byte ceiling is reached without `\r\n\r\n`, and whenever the request
line's method token is not exactly `CONNECT`. -/
theorem connect_reader_failure_modes (cfg : Config) (env : PnEnv) (s : List Char) :
    (allData env.reads = true →
      containsSeq crlfcrlf ((flattenData env.reads).take 4096) = false →
      pn_readConnect env.reads = .ok none) ∧
    ((splitWhitespace (firstLine s)).getD 0 [] ≠ str "CONNECT" →
      pn_parseConnect s = none) ∧
    (pn_readConnect env.reads = .ok none →
      pn_handle cfg env = [Event.writeClient (str "HTTP/1.1 400 Bad Request\r\n\r\n")]) := by
  refine ⟨fun hdata hnone => ?_, fun hm => ?_, fun hrc => ?_⟩
  · have hloop := pn_readLoopF_none (streamBytes env.reads + env.reads.length + 1)
      env.reads [] (by simp) hdata (by simpa using hnone)
    simp [pn_readConnect, pn_readLoop, hloop]
  · have hm2 : ¬ (splitWhitespace (firstLine s))[0]?.getD [] = str "CONNECT" := by
      simpa using hm
    simp [pn_parseConnect, hm2]
  · simp [pn_handle, hrc]

/-- Witness for `connect_reader_failure_modes`: a stream ending before
the terminator, and a GET request line. -/
theorem connect_reader_failure_modes_witness :
    pn_readConnect pnEnvEof.reads = .ok none ∧
    pn_parseConnect (str "GET / HTTP/1.1") = none ∧
    pn_handle cfgMonitor pnEnvEof =
      [Event.writeClient (str "HTTP/1.1 400 Bad Request\r\n\r\n")] :=
  ⟨(connect_reader_failure_modes cfgMonitor pnEnvEof (str "GET / HTTP/1.1")).1
      (by decide) (by decide),
   (connect_reader_failure_modes cfgMonitor pnEnvEof (str "GET / HTTP/1.1")).2.1
      (by decide),
   (connect_reader_failure_modes cfgMonitor pnEnvEof (str "GET / HTTP/1.1")).2.2
      (by rfl)⟩

/-- Binding an `ok` computation runs the continuation. -/
theorem exceptBind_ok {α β : Type} (a : α) (f : α → Except Unit β) :
    (Except.ok a >>= f) = f a := rfl

/-- A `pure` result never panics. -/
theorem exIsOk_pure {α : Type} (a : α) : exIsOk (pure a : Except Unit α) = true := rfl

/-- A bind never panics when neither side does. -/
theorem exIsOk_bind {α β : Type} {x : Except Unit α} {f : α → Except Unit β}
    (hx : exIsOk x = true) (hf : ∀ a, exIsOk (f a) = true) :
    exIsOk (x >>= f) = true := by
  cases x with
  | error e => simp [exIsOk] at hx
  | ok a => rw [exceptBind_ok]; exact hf a

/-- An in-bounds index read never panics. -/
theorem idxM_isOk {l : List UInt8} {i : Nat} (h : i < l.length) :
    exIsOk (idxM l i) = true := by
  simp [idxM, h, exIsOk]

/-- An in-bounds tail slice never panics. -/
theorem sliceFromM_isOk {l : List UInt8} {i : Nat} (h : i ≤ l.length) :
    exIsOk (sliceFromM l i) = true := by
  simp [sliceFromM, h, exIsOk]

/-- An in-bounds range slice never panics. -/
theorem sliceM_isOk {l : List UInt8} {i j : Nat} (h1 : i ≤ j) (h2 : j ≤ l.length) :
    exIsOk (sliceM l i j) = true := by
  simp [sliceM, h1, h2, exIsOk]

/-- The extension loop never panics: every access is guarded by the loop
condition or an explicit length check. -/
theorem findSniF_isOk (fuel : Nat) : ∀ (hello : List UInt8) (ext_end pos : Nat),
    exIsOk (findSniF fuel hello ext_end pos) = true := by
  induction fuel with
  | zero => intro hello ee pos; rfl
  | succ fuel ih =>
    intro hello ee pos
    rw [findSniF]
    by_cases h : pos + 4 ≤ ee ∧ pos + 4 ≤ hello.length
    · rw [if_pos h]
      apply exIsOk_bind (idxM_isOk (by omega)); intro t0
      apply exIsOk_bind (idxM_isOk (by omega)); intro t1
      apply exIsOk_bind (idxM_isOk (by omega)); intro l0
      apply exIsOk_bind (idxM_isOk (by omega)); intro l1
      try dsimp only
      by_cases ht : t0.toNat * 256 + t1.toNat = 0
      · rw [if_pos ht]
        by_cases h2 : pos + 4 + (l0.toNat * 256 + l1.toNat) > hello.length
        · rw [if_pos h2]; rfl
        · rw [if_neg h2]
          apply exIsOk_bind (sliceM_isOk (by omega) (by omega)); intro sni_data
          by_cases h3 : sni_data.length < 5
          · rw [if_pos h3]; rfl
          · rw [if_neg h3]
            apply exIsOk_bind (idxM_isOk (by omega)); intro n0
            apply exIsOk_bind (idxM_isOk (by omega)); intro n1
            try dsimp only
            by_cases h4 : sni_data.length < 5 + (n0.toNat * 256 + n1.toNat)
            · rw [if_pos h4]; rfl
            · rw [if_neg h4]
              apply exIsOk_bind (sliceM_isOk (by omega) (by omega)); intro name
              rfl
      · rw [if_neg ht]
        exact ih hello ee (pos + 4 + (l0.toNat * 256 + l1.toNat))
    · rw [if_neg h]
      rfl

/-- Function `parse_sni` never panics, whatever the bytes. -/
theorem parse_sniM_isOk (buf : List UInt8) : exIsOk (parse_sniM buf) = true := by
  unfold parse_sniM
  by_cases h5 : buf.length < 5
  · rw [if_pos h5]; rfl
  · rw [if_neg h5]
    apply exIsOk_bind (idxM_isOk (by omega)); intro b0
    by_cases hb0 : b0 ≠ 0x16
    · rw [if_pos hb0]; rfl
    · rw [if_neg hb0]
      apply exIsOk_bind (idxM_isOk (by omega)); intro b3
      apply exIsOk_bind (idxM_isOk (by omega)); intro b4
      try dsimp only
      by_cases hrl : buf.length < 5 + (b3.toNat * 256 + b4.toNat)
      · rw [if_pos hrl]; rfl
      · rw [if_neg hrl]
        apply exIsOk_bind (sliceFromM_isOk (by omega)); intro handshake
        by_cases hemp : handshake.isEmpty = true
        · rw [if_pos hemp]; rfl
        · rw [if_neg hemp]
          have hlen0 : 0 < handshake.length :=
            List.length_pos.mpr (by simpa [List.isEmpty_iff] using hemp)
          apply exIsOk_bind (idxM_isOk hlen0); intro h0
          by_cases hh0 : h0 ≠ 0x01
          · rw [if_pos hh0]; rfl
          · rw [if_neg hh0]
            by_cases hl4 : handshake.length < 4
            · rw [if_pos hl4]; rfl
            · rw [if_neg hl4]
              apply exIsOk_bind (idxM_isOk (by omega)); intro h1
              apply exIsOk_bind (idxM_isOk (by omega)); intro h2
              apply exIsOk_bind (idxM_isOk (by omega)); intro h3
              try dsimp only
              by_cases hhl : handshake.length < 4 + (h1.toNat * 65536 + h2.toNat * 256 + h3.toNat)
              · rw [if_pos hhl]; rfl
              · rw [if_neg hhl]
                apply exIsOk_bind (sliceFromM_isOk (by omega)); intro hello
                by_cases h34 : hello.length < 34
                · rw [if_pos h34]; rfl
                · rw [if_neg h34]
                  try dsimp only
                  by_cases hp34 : 34 ≥ hello.length
                  · rw [if_pos hp34]; rfl
                  · rw [if_neg hp34]
                    apply exIsOk_bind (idxM_isOk (by omega)); intro sess
                    try dsimp only
                    by_cases hcs : 34 + 1 + sess.toNat + 2 > hello.length
                    · rw [if_pos hcs]; rfl
                    · rw [if_neg hcs]
                      apply exIsOk_bind (idxM_isOk (by omega)); intro c0
                      apply exIsOk_bind (idxM_isOk (by omega)); intro c1
                      try dsimp only
                      by_cases hcp : 34 + 1 + sess.toNat + 2 + (c0.toNat * 256 + c1.toNat) ≥ hello.length
                      · rw [if_pos hcp]; rfl
                      · rw [if_neg hcp]
                        apply exIsOk_bind (idxM_isOk (by omega)); intro comp
                        try dsimp only
                        by_cases hep : 34 + 1 + sess.toNat + 2 + (c0.toNat * 256 + c1.toNat) + 1 + comp.toNat + 2 > hello.length
                        · rw [if_pos hep]; rfl
                        · rw [if_neg hep]
                          apply exIsOk_bind (idxM_isOk (by omega)); intro e0
                          apply exIsOk_bind (idxM_isOk (by omega)); intro e1
                          exact findSniF_isOk _ hello _ _

/-- Claim C9: `parse_sni` is total and panic-free: on every byte buffer the
panic-explicit model returns `.ok`, and in particular a buffer shorter
than `5 + record_len` makes it return `None` rather than read out of
bounds. -/
theorem parse_sni_no_panic (buf : List UInt8) :
    exIsOk (parse_sniM buf) = true ∧
    (5 ≤ buf.length → buf.length < 5 + sniRecordLen buf → parse_sniM buf = .ok none) := by
  refine ⟨parse_sniM_isOk buf, fun h5 hlen => ?_⟩
  unfold parse_sniM
  rw [if_neg (by omega)]
  have h0 : (0 : Nat) < buf.length := by omega
  rw [show idxM buf 0 = Except.ok (buf.get ⟨0, h0⟩) from dif_pos h0, exceptBind_ok]
  by_cases hb : buf.get ⟨0, h0⟩ ≠ 0x16
  · rw [if_pos hb]; rfl
  · rw [if_neg hb]
    have h3 : (3 : Nat) < buf.length := by omega
    have h4 : (4 : Nat) < buf.length := by omega
    rw [show idxM buf 3 = Except.ok (buf.get ⟨3, h3⟩) from dif_pos h3, exceptBind_ok]
    rw [show idxM buf 4 = Except.ok (buf.get ⟨4, h4⟩) from dif_pos h4, exceptBind_ok]
    try dsimp only
    have hrec : (buf.get ⟨3, h3⟩).toNat * 256 + (buf.get ⟨4, h4⟩).toNat = sniRecordLen buf := by
      simp [sniRecordLen, List.getD_eq_getElem?_getD, List.getElem?_eq_getElem, h3, h4]
    rw [if_pos (by rw [hrec]; exact hlen)]
    rfl

/-- Witness for `parse_sni_no_panic`: a 5-byte record header announcing a
16-byte record with no body. -/
theorem parse_sni_no_panic_witness :
    exIsOk (parse_sniM [0x16, 0x03, 0x01, 0x00, 0x10]) = true ∧
    parse_sniM [0x16, 0x03, 0x01, 0x00, 0x10] = .ok none :=
  ⟨(parse_sni_no_panic [0x16, 0x03, 0x01, 0x00, 0x10]).1,
   (parse_sni_no_panic [0x16, 0x03, 0x01, 0x00, 0x10]).2 (by decide) (by decide)⟩

end SecureProxy
